import Mathlib

/-!
# Fractalis orchestration and access-control core: a shallow embedding

This file embeds the two controllers of the Fractalis repository that the
specification's claims are about:

* `fractalis/state/controller.py` — `save_state`, `request_state_access`,
  `get_state_data` (the Access-Control Gate / State Sharing component);
* `fractalis/analytics/controller.py` — `create_job`, `get_job_details`,
  `cancel_job` (the caller-facing face of the Job Orchestrator).

External collaborators that the controllers call but whose code is not part
of the embedded sources (`ETLHandler.handle`, `get_data_state_for_task_id`,
`AnalyticsJob.factory`, the celery backend) are passed in as explicit
function parameters, so every theorem quantifies over their behaviour.
Redis is modelled as typed partial maps, one per key namespace
(`data:{task_id}` and `state:{state_id}` keys never collide), holding the
already-parsed JSON payloads the controllers read and write.
-/

namespace Fractalis

/-- A descriptor is an opaque JSON payload describing what data to extract;
the controllers never inspect it, they only move it around. -/
abbrev Descriptor := String

/-- The parsed content of a `data:{task_id}` redis entry, as `save_state`
sees it: either the stored value fails to parse into a data state with a
`meta.descriptor` field (`ValueError`/`KeyError`/`TypeError` branch), or it
yields a descriptor. -/
inductive DataRecord where
  | invalid
  | valid (descriptor : Descriptor)
  deriving DecidableEq, Repr

/-- The `state:{state_id}` record persisted by `save_state` (the Python
`meta_state` dict). -/
structure MetaState where
  state : String
  server : String
  handler : String
  task_ids : List String
  descriptors : List Descriptor
  deriving DecidableEq, Repr

/-! ## `re.findall('\$.+?\$', state)`

`save_state` scans the template for `$...$` markers with a lazy regex.
`findCloser s` matches `.+?\$` against `s`: it returns the shortest
non-empty newline-free prefix of `s` that is followed by a `'$'`, together
with the characters after that closing `'$'`. -/

/-- Lazy search for the closing `'$'`: the accumulator holds the content
matched by `.+?` so far (reversed); the next character either closes the
marker, kills the match (`'.'` does not match a newline), or is swallowed
into the content. -/
def findCloserGo (acc : List Char) : List Char → Option (List Char × List Char)
  | [] => none
  | d :: rest =>
    if d = '$' then some (acc.reverse, rest)
    else if d = '\n' then none
    else findCloserGo (d :: acc) rest

/-- Match `.+?\$` at the start of the character list (content must be
non-empty, so the first character is always consumed into it). -/
def findCloser : List Char → Option (List Char × List Char)
  | [] => none
  | c :: rest => if c = '\n' then none else findCloserGo [c] rest

/-- `re.findall('\$.+?\$', s)` over a character list: at each position, an
opening `'$'` starts a lazy match; on success the whole marker (dollars
included) is collected and scanning resumes after it, on failure scanning
resumes at the next character.  Every recursive call works on a strictly
shorter list (`findCloser` consumes at least the closing `'$'`), so a fuel
of the input's length always runs the scan to completion; the fuel only
serves to make the recursion structural. -/
def findallGo : Nat → List Char → List (List Char)
  | 0, _ => []
  | _, [] => []
  | fuel + 1, c :: rest =>
    if c = '$' then
      match findCloser rest with
      | some (content, rest2) =>
        ('$' :: content ++ ['$']) :: findallGo fuel rest2
      | none => findallGo fuel rest
    else findallGo fuel rest

/-- `re.findall('\$.+?\$', state)` on a Lean `String`. -/
def findall (s : String) : List String :=
  (findallGo s.data.length s.data).map String.mk

/-- Modelled from the spec: `AnalyticTask.parse_value`
(`fractalis/analytics/task.py` is not among the embedded sources).  The
spec describes the template as "a string with embedded job-id markers"
that are "lexically-recognizable"; a marker `$id$` embeds the job id, and
`parse_value(match)[0]` recovers it, i.e. strips the surrounding dollars. -/
def parse_value (marker : String) : String :=
  String.mk ((marker.data.drop 1).dropLast)

/-- The response of `save_state`, together with every redis write the call
performed (`save_state` writes at most one `state:{uuid}` record). -/
inductive SaveResp where
  /-- 400: the template contains no `$...$` data-task markers. -/
  | badRequestNoIds
  /-- 400: `redis.get('data:{task_id}')` returned nothing. -/
  | badRequestMissing (task_id : String)
  /-- 400: the stored value is not a valid data state. -/
  | badRequestInvalid (task_id : String)
  /-- The `assert len(matches) == len(descriptors)` failed. -/
  | assertionError
  /-- 201 with the fresh state id. -/
  | created (state_id : String)
  deriving DecidableEq, Repr

structure SaveOut where
  resp : SaveResp
  writes : List (String × MetaState)
  deriving DecidableEq, Repr

/-- The descriptor-collection loop of `save_state`: for each task id, load
`data:{task_id}`; a missing or unparsable record aborts the whole request
with a 400. -/
def collectDescriptors (dataStore : String → Option DataRecord) :
    List String → Except SaveResp (List Descriptor)
  | [] => .ok []
  | t :: rest =>
    match dataStore t with
    | none => .error (.badRequestMissing t)
    | some .invalid => .error (.badRequestInvalid t)
    | some (.valid d) =>
      match collectDescriptors dataStore rest with
      | .error e => .error e
      | .ok ds => .ok (d :: ds)

/-- `save_state` (POST /state).  `dataStore` is the `data:{task_id}`
namespace of redis; `uuid` is the value drawn from `uuid4()`.  Python's
`list(set(task_ids))` is modelled by `List.dedup`: the claims under proof
depend only on which ids survive deduplication, not on the (unspecified)
order Python's set iteration produces. -/
def save_state (dataStore : String → Option DataRecord) (uuid : String)
    (state server handler : String) : SaveOut :=
  let marks := findall state
  let task_ids := (marks.map parse_value).dedup
  if marks = [] then
    { resp := .badRequestNoIds, writes := [] }
  else
    match collectDescriptors dataStore task_ids with
    | .error e => { resp := e, writes := [] }
    | .ok descriptors =>
      if marks.length = descriptors.length then
        { resp := .created uuid
          writes := [("state:" ++ uuid,
            { state := state, server := server, handler := handler
              task_ids := task_ids, descriptors := descriptors })] }
      else
        { resp := .assertionError, writes := [] }

/-! ## The session and the access-grant dictionary

`session['state_access']` is a Python dict whose keys are state-id
*strings* (the only writer is `request_state_access`, which assigns
`session['state_access'][state_id] = task_ids` with `state_id = str(state_id)`).
`get_state_data`'s substitution loop, however, indexes this dict with the
*integer* loop counter `i`.  To keep both accesses expressible the dict is
modelled with a key type covering both Python key kinds. -/

inductive PyKey where
  | str (s : String)
  | int (n : Nat)
  deriving DecidableEq, Repr

/-- A Python dict as an association list (first binding wins on lookup;
`dictSet` keeps at most one binding per key, like a real dict). -/
abbrev AccessDict := List (PyKey × List String)

def dictGet (d : AccessDict) (k : PyKey) : Option (List String) :=
  match d with
  | [] => none
  | (k', v) :: rest => if k' = k then some v else dictGet rest k

def dictSet (d : AccessDict) (k : PyKey) (v : List String) : AccessDict :=
  match d with
  | [] => [(k, v)]
  | (k', v') :: rest =>
    if k' = k then (k, v) :: rest else (k', v') :: dictSet rest k v

/-- The per-caller session state the /state controller reads and writes:
`session['data_tasks']` and `session['state_access']`. -/
structure StateSession where
  data_tasks : List String
  state_access : AccessDict
  deriving DecidableEq, Repr

/-- Response of `request_state_access` (POST /state/<state_id>). -/
inductive RequestAccessResp where
  /-- 404: no `state:{state_id}` record. -/
  | notFound
  /-- 202: ETLs submitted. -/
  | accepted
  deriving DecidableEq, Repr

structure RequestAccessOut where
  resp : RequestAccessResp
  session : StateSession
  /-- Whether `ETLHandler.factory(...).handle(...)` was invoked. -/
  handleCalled : Bool
  deriving DecidableEq, Repr

/-- `request_state_access` (POST /state/<state_id>).  `stateStore` is the
`state:{state_id}` namespace of redis; `handle` stands for the external
`ETLHandler.factory(...).handle(descriptors, data_tasks, use_existing=True,
wait)` call and returns the derived task ids (the controller under proof
treats it as a black box).  On success the controller extends
`session['data_tasks']` with the new ids, deduplicates it via
`list(set(...))` (modelled by `List.dedup`, see `save_state`), and
overwrites `session['state_access'][state_id]` with the fresh grant. -/
def request_state_access (stateStore : String → Option MetaState)
    (handle : List Descriptor → List String → List String)
    (session : StateSession) (state_id : String) : RequestAccessOut :=
  match stateStore state_id with
  | none => { resp := .notFound, session := session, handleCalled := false }
  | some meta_state =>
    let task_ids := handle meta_state.descriptors session.data_tasks
    { resp := .accepted
      session :=
        { data_tasks := (session.data_tasks ++ task_ids).dedup
          state_access := dictSet session.state_access (.str state_id) task_ids }
      handleCalled := true }

/-- Result of `get_state_data` (GET /state/<state_id>). -/
inductive GetStateResult where
  /-- Unhandled `TypeError`: `json.loads(redis.get(...))` is evaluated
  before checking that the record exists, and `json.loads(None)` raises. -/
  | loadNoneError
  /-- 404: `state_id not in session['state_access']`. -/
  | accessNotRequested
  /-- 202: ETLs are still running. -/
  | pending
  /-- 403: one or more ETLs failed or has unknown status. -/
  | denied
  /-- Unhandled `KeyError`: the substitution loop looks up
  `session['state_access'][i]` with the integer loop index `i`, which is
  not a key of the string-keyed grant dict. -/
  | substKeyError
  /-- Unhandled `TypeError`: were an integer key present, its value is a
  list of task ids, and `re.sub` rejects a non-string `repl`. -/
  | substTypeError
  /-- 200 with the (`task_ids`-rewritten) `meta_state`. -/
  | ok (meta_state : MetaState)
  deriving DecidableEq, Repr

/-- Outcome of the ETL-status polling loop of `get_state_data`. -/
inductive CheckOutcome where
  | pending
  | denied
  | allSuccess
  deriving DecidableEq, Repr

/-- The polling loop: for each grant task id in order, fetch its data
state; `data_state is not None and data_state['etl_state'] == 'SUBMITTED'`
returns 202 at once, `... == 'SUCCESS'` continues, anything else (a
missing record included) returns 403.  `poll t = some st` models a record
with `etl_state` equal to `st`, so each Python condition is exactly one
option equality. -/
def checkLoop (poll : String → Option String) : List String → CheckOutcome
  | [] => .allSuccess
  | t :: rest =>
    if poll t = some "SUBMITTED" then .pending
    else if poll t = some "SUCCESS" then checkLoop poll rest
    else .denied

/-- `get_state_data` (GET /state/<state_id>).  `stateStore` is the
`state:{state_id}` namespace of redis; `poll` stands for the external
`get_data_state_for_task_id(task_id, wait)` call
(`fractalis/data/controller.py` is not among the embedded sources;
modelled from the spec as returning the polled job's record — here just
its `etl_state` string — or `None` when the job is unknown or expired). -/
def get_state_data (stateStore : String → Option MetaState)
    (poll : String → Option String)
    (session : StateSession) (state_id : String) : GetStateResult :=
  match stateStore state_id with
  | none => .loadNoneError
  | some meta_state =>
    match dictGet session.state_access (.str state_id) with
    | none => .accessNotRequested
    | some grant =>
      match checkLoop poll grant with
      | .pending => .pending
      | .denied => .denied
      | .allSuccess =>
        -- The substitution loop `for i, task_id in
        -- enumerate(meta_state['task_ids']): meta_state['state'] =
        -- re.sub(pattern=task_id, repl=session['state_access'][i], ...)`.
        -- An empty task-id list skips the loop and the unmodified
        -- meta_state is returned with 200.  Otherwise iteration i = 0
        -- evaluates `session['state_access'][0]`: the grant dict holds
        -- only string keys, so that raises KeyError — and were an integer
        -- key ever present, its list value would be rejected by re.sub as
        -- `repl` (TypeError).  Either way the call aborts before any
        -- substitution, so the loop never runs past i = 0.
        match meta_state.task_ids with
        | [] => .ok meta_state
        | _ :: _ =>
          match dictGet session.state_access (.int 0) with
          | none => .substKeyError
          | some _ => .substTypeError

/-! ## The analytics controller (`fractalis/analytics/controller.py`)

`prepare_session` guarantees every request sees a `session['jobs']` list,
so the session is modelled as a structure that always carries one.  The
celery backend is an external collaborator: `AsyncResult(job_id)` is
modelled as a total function from job id to a (state, result) snapshot
(celery yields a result object for any id), and job submission's fresh id
(`analytics_job.delay(...).id`) is a parameter.  The optional `wait=1`
query flag only blocks until that snapshot is final; it does not change
which snapshot the handler reads, so it needs no own parameter. -/

/-- The per-caller session of the analytics blueprint: `session['jobs']`. -/
structure AnalyticsSession where
  jobs : List String
  deriving DecidableEq, Repr

/-- A celery task result: either a plain value or an exception instance
(`isinstance(result, Exception)`) carrying its type name and message. -/
inductive JobResult where
  | val (v : String)
  | exc (ty msg : String)
  deriving DecidableEq, Repr

/-- Response of `create_job` (POST /analytics). -/
inductive CreateResp where
  /-- 400: no job with the requested name. -/
  | badRequest (job_name : String)
  /-- 201 with the id of the submitted job. -/
  | created (job_id : String)
  deriving DecidableEq, Repr

/-- `create_job`.  `factory` stands for `AnalyticsJob.factory(job_name)`
(`fractalis/analytics/job.py` is not among the embedded sources; the
controller only branches on whether it found a job class); `newId` is the
id celery assigns to the submitted task. -/
def create_job (factory : String → Option Unit) (newId : String)
    (job_name : String) (session : AnalyticsSession) :
    CreateResp × AnalyticsSession :=
  match factory job_name with
  | none => (.badRequest job_name, session)
  | some _ => (.created newId, { jobs := session.jobs ++ [newId] })

/-- The `result` field of a 200 response of `get_job_details`: either the
raw task result, or — when the stored result is an exception — the string
`"{type}: {message}"` the controller formats in its place. -/
inductive DetailsResult where
  | raw (v : String)
  | excStr (s : String)
  deriving DecidableEq, Repr

/-- Response of `get_job_details` (GET /analytics/<job_id>). -/
inductive DetailsResp where
  /-- 404: job id not in `session['jobs']`. -/
  | notFound
  /-- 200 with the celery state and the (possibly stringified) result. -/
  | ok (status : String) (result : DetailsResult)
  deriving DecidableEq, Repr

/-- `get_job_details`.  `celery` maps a job id to the
`(async_result.state, async_result.result)` snapshot. -/
def get_job_details (celery : String → String × JobResult)
    (session : AnalyticsSession) (job_id : String) : DetailsResp :=
  if job_id ∈ session.jobs then
    match celery job_id with
    | (st, .val v) => .ok st (.raw v)
    | (st, .exc ty msg) => .ok st (.excStr (ty ++ ": " ++ msg))
  else
    .notFound

/-- Response of `cancel_job` (DELETE /analytics/<job_id>). -/
inductive CancelResp where
  /-- 404: job id not in `session['jobs']`. -/
  | notFound
  /-- 200 echoing the cancelled job id. -/
  | ok (job_id : String)
  deriving DecidableEq, Repr

structure CancelOut where
  resp : CancelResp
  session : AnalyticsSession
  /-- The `celery.control.revoke(...)` calls the handler issued. -/
  revoked : List String
  deriving DecidableEq, Repr

/-- `cancel_job`.  The access-control check precedes the revoke, so an id
outside `session['jobs']` leaves celery untouched; on success the id's
first occurrence is removed from the session (`list.remove`). -/
def cancel_job (session : AnalyticsSession) (job_id : String) : CancelOut :=
  if job_id ∈ session.jobs then
    { resp := .ok job_id
      session := { jobs := session.jobs.erase job_id }
      revoked := [job_id] }
  else
    { resp := .notFound, session := session, revoked := [] }

/-! ## Properties of the ETL-status polling loop -/

/-- The scan returns `pending` exactly when some grant job polls as
`SUBMITTED` and every job before it polls as `SUCCESS`. -/
theorem checkLoop_pending_iff (poll : String → Option String) (l : List String) :
    checkLoop poll l = .pending ↔
      ∃ l₁ x l₂, l = l₁ ++ x :: l₂ ∧ (∀ y ∈ l₁, poll y = some "SUCCESS") ∧
        poll x = some "SUBMITTED" := by
  induction l with
  | nil =>
    constructor
    · intro h; simp only [checkLoop] at h; cases h
    · rintro ⟨l₁, x, l₂, heq, -, -⟩
      cases l₁ <;> simp at heq
  | cons t rest ih =>
    by_cases h1 : poll t = some "SUBMITTED"
    · simp only [checkLoop, if_pos h1]
      constructor
      · intro _; exact ⟨[], t, rest, rfl, by simp, h1⟩
      · intro _; trivial
    · by_cases h2 : poll t = some "SUCCESS"
      · simp only [checkLoop, if_neg h1, if_pos h2]
        rw [ih]
        constructor
        · rintro ⟨l₁, x, l₂, rfl, hall, hx⟩
          refine ⟨t :: l₁, x, l₂, rfl, ?_, hx⟩
          intro y hy
          rcases List.mem_cons.mp hy with rfl | hy'
          · exact h2
          · exact hall y hy'
        · rintro ⟨l₁, x, l₂, heq, hall, hx⟩
          cases l₁ with
          | nil =>
            rw [List.nil_append] at heq
            injection heq with heq₁ heq₂
            exact absurd (heq₁ ▸ hx) h1
          | cons a l₁' =>
            rw [List.cons_append] at heq
            injection heq with heq₁ heq₂
            subst heq₁
            exact ⟨l₁', x, l₂, heq₂, fun y hy => hall y (List.mem_cons_of_mem _ hy), hx⟩
      · simp only [checkLoop, if_neg h1, if_neg h2]
        constructor
        · intro h; cases h
        · rintro ⟨l₁, x, l₂, heq, hall, hx⟩
          cases l₁ with
          | nil =>
            rw [List.nil_append] at heq
            injection heq with heq₁ heq₂
            exact absurd (heq₁ ▸ hx) h1
          | cons a l₁' =>
            rw [List.cons_append] at heq
            injection heq with heq₁ heq₂
            subst heq₁
            exact absurd (hall t (by simp)) h2

/-- The scan returns `denied` exactly when some grant job polls as neither
`SUBMITTED` nor `SUCCESS` and every job before it polls as `SUCCESS`. -/
theorem checkLoop_denied_iff (poll : String → Option String) (l : List String) :
    checkLoop poll l = .denied ↔
      ∃ l₁ x l₂, l = l₁ ++ x :: l₂ ∧ (∀ y ∈ l₁, poll y = some "SUCCESS") ∧
        poll x ≠ some "SUBMITTED" ∧ poll x ≠ some "SUCCESS" := by
  induction l with
  | nil =>
    constructor
    · intro h; simp only [checkLoop] at h; cases h
    · rintro ⟨l₁, x, l₂, heq, -, -⟩
      cases l₁ <;> simp at heq
  | cons t rest ih =>
    by_cases h1 : poll t = some "SUBMITTED"
    · simp only [checkLoop, if_pos h1]
      constructor
      · intro h; cases h
      · rintro ⟨l₁, x, l₂, heq, hall, hx₁, hx₂⟩
        cases l₁ with
        | nil =>
          rw [List.nil_append] at heq
          injection heq with heq₁ heq₂
          exact absurd (heq₁ ▸ h1) hx₁
        | cons a l₁' =>
          rw [List.cons_append] at heq
          injection heq with heq₁ heq₂
          subst heq₁
          exact absurd ((hall t (by simp)).symm.trans h1) (by decide)
    · by_cases h2 : poll t = some "SUCCESS"
      · simp only [checkLoop, if_neg h1, if_pos h2]
        rw [ih]
        constructor
        · rintro ⟨l₁, x, l₂, rfl, hall, hx⟩
          refine ⟨t :: l₁, x, l₂, rfl, ?_, hx⟩
          intro y hy
          rcases List.mem_cons.mp hy with rfl | hy'
          · exact h2
          · exact hall y hy'
        · rintro ⟨l₁, x, l₂, heq, hall, hx₁, hx₂⟩
          cases l₁ with
          | nil =>
            rw [List.nil_append] at heq
            injection heq with heq₁ heq₂
            exact absurd (heq₁ ▸ h2) hx₂
          | cons a l₁' =>
            rw [List.cons_append] at heq
            injection heq with heq₁ heq₂
            subst heq₁
            exact ⟨l₁', x, l₂, heq₂, fun y hy => hall y (List.mem_cons_of_mem _ hy),
              hx₁, hx₂⟩
      · simp only [checkLoop, if_neg h1, if_neg h2]
        constructor
        · intro _; exact ⟨[], t, rest, rfl, by simp, h1, h2⟩
        · intro _; trivial

/-- The scan reaches the end exactly when every grant job polls as
`SUCCESS`. -/
theorem checkLoop_allSuccess_iff (poll : String → Option String) (l : List String) :
    checkLoop poll l = .allSuccess ↔ ∀ y ∈ l, poll y = some "SUCCESS" := by
  induction l with
  | nil => simp [checkLoop]
  | cons t rest ih =>
    by_cases h1 : poll t = some "SUBMITTED"
    · simp only [checkLoop, if_pos h1]
      constructor
      · intro h; cases h
      · intro h
        exact absurd ((h t (by simp)).symm.trans h1) (by decide)
    · by_cases h2 : poll t = some "SUCCESS"
      · simp only [checkLoop, if_neg h1, if_pos h2]
        rw [ih]
        constructor
        · intro h y hy
          rcases List.mem_cons.mp hy with rfl | hy'
          · exact h2
          · exact h y hy'
        · intro h y hy
          exact h y (List.mem_cons_of_mem _ hy)
      · simp only [checkLoop, if_neg h1, if_neg h2]
        constructor
        · intro h; cases h
        · intro h
          exact absurd (h t (by simp)) h2

/-- Reduction of `get_state_data` once the state record and the grant are
known to exist: the response is decided by the polling loop, then (on full
success) by the substitution loop. -/
theorem get_state_data_grant (stateStore : String → Option MetaState)
    (poll : String → Option String) (session : StateSession)
    (state_id : String) (ms : MetaState) (grant : List String)
    (hms : stateStore state_id = some ms)
    (hg : dictGet session.state_access (.str state_id) = some grant) :
    get_state_data stateStore poll session state_id =
      match checkLoop poll grant with
      | .pending => .pending
      | .denied => .denied
      | .allSuccess =>
        match ms.task_ids with
        | [] => .ok ms
        | _ :: _ =>
          match dictGet session.state_access (.int 0) with
          | none => .substKeyError
          | some _ => .substTypeError := by
  simp only [get_state_data, hms, hg]

/-! ## Concrete environments used by counterexamples and witnesses -/

/-- A one-state store: `state:s1` holds a template depending on task `A`. -/
def storeS1 : String → Option MetaState := fun s =>
  if s = "s1" then
    some { state := "$A$", server := "srv", handler := "test"
           task_ids := ["A"], descriptors := ["descA"] }
  else none

/-- A session that requested access to `s1` and was granted jobs `j1`, `j2`. -/
def sessJ12 : StateSession :=
  { data_tasks := ["j1", "j2"], state_access := [(.str "s1", ["j1", "j2"])] }

/-- Job `j1` is still submitted, job `j2` already failed. -/
def pollSubFail : String → Option String := fun j =>
  if j = "j1" then some "SUBMITTED"
  else if j = "j2" then some "FAILURE"
  else none

/-- C1, counterexample.  The claim requires a 403 (`denied`) whenever some
grant job has status Failure — here `j2` polls as `FAILURE` — but because
the loop inspects `j1` first and finds it `SUBMITTED`, the call answers
202 (`pending`), not 403. -/
theorem get_state_data_pending_shadows_failure :
    pollSubFail "j2" = some "FAILURE" ∧
      dictGet sessJ12.state_access (.str "s1") = some ["j1", "j2"] ∧
      "j2" ∈ (["j1", "j2"] : List String) ∧
      get_state_data storeS1 pollSubFail sessJ12 "s1" = .pending ∧
      get_state_data storeS1 pollSubFail sessJ12 "s1" ≠ .denied := by
  refine ⟨rfl, rfl, by decide, rfl, ?_⟩
  intro h
  rw [show get_state_data storeS1 pollSubFail sessJ12 "s1" = .pending from rfl] at h
  cases h

/-- C1, amended.  For a session holding a grant on an existing state, the
outcome of `get_state_data` is decided by an ordered scan of the grant:
202 (`pending`) exactly when the first non-`SUCCESS` job polls as
`SUBMITTED`; 403 (`denied`, template never revealed) exactly when the
first non-`SUCCESS` job polls as something else (Failure, Cancelled, an
unknown status, or a missing record); and when every job polls `SUCCESS`
the handler proceeds to the substitution step, which returns the stored
record only for an (unreachable via `save_state`) empty task-id list and
otherwise dies with an unhandled KeyError/TypeError instead of answering
200. -/
theorem get_state_data_outcome_partition (stateStore : String → Option MetaState)
    (poll : String → Option String) (session : StateSession)
    (state_id : String) (ms : MetaState) (grant : List String)
    (hms : stateStore state_id = some ms)
    (hg : dictGet session.state_access (.str state_id) = some grant) :
    (get_state_data stateStore poll session state_id = .pending ↔
      ∃ l₁ x l₂, grant = l₁ ++ x :: l₂ ∧ (∀ y ∈ l₁, poll y = some "SUCCESS") ∧
        poll x = some "SUBMITTED") ∧
    (get_state_data stateStore poll session state_id = .denied ↔
      ∃ l₁ x l₂, grant = l₁ ++ x :: l₂ ∧ (∀ y ∈ l₁, poll y = some "SUCCESS") ∧
        poll x ≠ some "SUBMITTED" ∧ poll x ≠ some "SUCCESS") ∧
    ((∀ y ∈ grant, poll y = some "SUCCESS") →
      (ms.task_ids = [] ∧ get_state_data stateStore poll session state_id = .ok ms) ∨
      (ms.task_ids ≠ [] ∧
        (get_state_data stateStore poll session state_id = .substKeyError ∨
         get_state_data stateStore poll session state_id = .substTypeError))) := by
  rw [get_state_data_grant stateStore poll session state_id ms grant hms hg]
  refine ⟨?_, ?_, ?_⟩
  · rw [← checkLoop_pending_iff]
    cases hc : checkLoop poll grant with
    | pending => simp
    | denied => simp
    | allSuccess =>
      constructor
      · intro h
        exfalso
        rcases hti : ms.task_ids with _ | ⟨a, l⟩
        · rw [hti] at h; cases h
        · rw [hti] at h
          rcases hd : dictGet session.state_access (.int 0) with _ | v
          · rw [hd] at h; cases h
          · rw [hd] at h; cases h
      · intro h; cases h
  · rw [← checkLoop_denied_iff]
    cases hc : checkLoop poll grant with
    | pending => simp
    | denied => simp
    | allSuccess =>
      constructor
      · intro h
        exfalso
        rcases hti : ms.task_ids with _ | ⟨a, l⟩
        · rw [hti] at h; cases h
        · rw [hti] at h
          rcases hd : dictGet session.state_access (.int 0) with _ | v
          · rw [hd] at h; cases h
          · rw [hd] at h; cases h
      · intro h; cases h
  · intro hall
    have hc : checkLoop poll grant = .allSuccess :=
      (checkLoop_allSuccess_iff poll grant).mpr hall
    rw [hc]
    cases hti : ms.task_ids with
    | nil => exact Or.inl ⟨rfl, rfl⟩
    | cons a l =>
      refine Or.inr ⟨by simp, ?_⟩
      cases dictGet session.state_access (.int 0) with
      | none => exact Or.inl rfl
      | some v => exact Or.inr rfl

/-- C1, witness: applying the partition to the concrete environment in
which `j2` failed first (`j1` succeeds) yields the 403 answer. -/
theorem get_state_data_outcome_partition_witness :
    get_state_data storeS1 (fun j => if j = "j1" then some "SUCCESS"
      else if j = "j2" then some "FAILURE" else none) sessJ12 "s1" = .denied := by
  refine ((get_state_data_outcome_partition storeS1 _ sessJ12 "s1" _ ["j1", "j2"]
    rfl rfl).2.1).mpr ⟨["j1"], "j2", [], rfl, ?_, by decide, by decide⟩
  intro y hy
  rcases List.mem_singleton.mp hy with rfl
  rfl

/-- Every grant job polls as `SUCCESS`. -/
def pollAllSuccess : String → Option String := fun _ => some "SUCCESS"

/-- C2, failing input.  State `s1` was saved over task id `A` with grant
`["j1", "j2"]` for the session, and every grant job succeeded, so the
claim (and the controller's own comment, "replace task ids in state with
the ids of the freshly loaded data") promises a 200 response carrying the
template with `A` substituted.  Instead the first loop iteration evaluates
`session['state_access'][0]` — an integer lookup in the string-keyed grant
dict — and the request dies with an unhandled `KeyError`. -/
theorem get_state_data_substitution_crashes :
    get_state_data storeS1 pollAllSuccess sessJ12 "s1" = .substKeyError ∧
      ∀ ms, get_state_data storeS1 pollAllSuccess sessJ12 "s1" ≠ .ok ms := by
  refine ⟨rfl, ?_⟩
  intro ms h
  rw [show get_state_data storeS1 pollAllSuccess sessJ12 "s1" = .substKeyError
    from rfl] at h
  cases h

/-- C9.  `get_state_data` evaluates `json.loads(redis.get('state:{id}'))`
before any existence or access check, so a missing `state:{state_id}`
record makes the call die with `TypeError` (`json.loads(None)`) for every
session — whether or not it holds a grant — instead of answering 404. -/
theorem get_state_data_missing_state_raises
    (stateStore : String → Option MetaState) (poll : String → Option String)
    (session : StateSession) (state_id : String)
    (h : stateStore state_id = none) :
    get_state_data stateStore poll session state_id = .loadNoneError := by
  simp only [get_state_data, h]

/-- C9, witness: a session that even holds a grant for `s0` still crashes
when the record is gone. -/
theorem get_state_data_missing_state_raises_witness :
    get_state_data (fun _ => none) pollAllSuccess
      { data_tasks := ["j1"], state_access := [(.str "s0", ["j1"])] } "s0" =
      .loadNoneError :=
  get_state_data_missing_state_raises (fun _ => none) pollAllSuccess
    { data_tasks := ["j1"], state_access := [(.str "s0", ["j1"])] } "s0" rfl

/-- A session with no grants and no data tasks. -/
def sessEmpty : StateSession := { data_tasks := [], state_access := [] }

/-- C6, counterexample.  The claim promises a 404 *whenever* the session
holds no grant for the state id; but when additionally no `state:{id}`
record exists, the call instead dies in `json.loads(None)` before the
grant check is reached. -/
theorem get_state_data_no_grant_not_always_404 :
    dictGet sessEmpty.state_access (.str "s1") = none ∧
      get_state_data (fun _ => none) pollAllSuccess sessEmpty "s1" =
        .loadNoneError ∧
      get_state_data (fun _ => none) pollAllSuccess sessEmpty "s1" ≠
        .accessNotRequested := by
  refine ⟨rfl, rfl, ?_⟩
  intro h
  rw [show get_state_data (fun _ => none) pollAllSuccess sessEmpty "s1" =
    .loadNoneError from rfl] at h
  cases h

/-- C6, amended.  Whenever a `state:{state_id}` record exists and the
calling session holds no access grant for it, `get_state_data` answers 404
(`accessNotRequested`), a response that carries nothing of the stored
record; with no stored record the call instead dies in `json.loads(None)`. -/
theorem get_state_data_no_grant_404 (stateStore : String → Option MetaState)
    (poll : String → Option String) (session : StateSession)
    (state_id : String) (ms : MetaState)
    (hms : stateStore state_id = some ms)
    (hg : dictGet session.state_access (.str state_id) = none) :
    get_state_data stateStore poll session state_id = .accessNotRequested := by
  simp only [get_state_data, hms, hg]

/-- C6, witness: the saved state `s1` exists but `sessEmpty` never
requested access, so the answer is the 404. -/
theorem get_state_data_no_grant_404_witness :
    get_state_data storeS1 pollAllSuccess sessEmpty "s1" =
      .accessNotRequested :=
  get_state_data_no_grant_404 storeS1 pollAllSuccess sessEmpty "s1" _ rfl rfl

/-- C5.  `request_state_access` on a state id with no stored record
answers 404 before the ETL handler is ever consulted: the session's
data-task list and its access grants are returned unchanged and
`handleCalled` records that no jobs were derived. -/
theorem request_state_access_missing_state
    (stateStore : String → Option MetaState)
    (handle : List Descriptor → List String → List String)
    (session : StateSession) (state_id : String)
    (h : stateStore state_id = none) :
    request_state_access stateStore handle session state_id =
      { resp := .notFound, session := session, handleCalled := false } := by
  simp only [request_state_access, h]

/-- C5, witness: the empty store knows no state `s9`. -/
theorem request_state_access_missing_state_witness :
    request_state_access (fun _ => none) (fun _ _ => ["t1"]) sessJ12 "s9" =
      { resp := .notFound, session := sessJ12, handleCalled := false } :=
  request_state_access_missing_state (fun _ => none) (fun _ _ => ["t1"])
    sessJ12 "s9" rfl

/-- Assigning a key in a Python dict makes the subsequent lookup of that
key return exactly the assigned value. -/
theorem dictGet_dictSet (d : AccessDict) (k : PyKey) (v : List String) :
    dictGet (dictSet d k v) k = some v := by
  induction d with
  | nil => simp [dictSet, dictGet]
  | cons p rest ih =>
    obtain ⟨k', v'⟩ := p
    by_cases h : k' = k
    · subst h
      simp [dictSet, dictGet]
    · simp [dictSet, dictGet, h, ih]

/-- C10.  For every existing state, `request_state_access` answers 202
and leaves the session with (i) a duplicate-free `data_tasks` list that
(ii) contains every job id of the freshly derived grant, while (iii) the
grant stored for the state id is exactly that fresh id list, whatever
grant (if any) was there before. -/
theorem request_state_access_session_invariant
    (stateStore : String → Option MetaState)
    (handle : List Descriptor → List String → List String)
    (session : StateSession) (state_id : String) (ms : MetaState)
    (hms : stateStore state_id = some ms) :
    (request_state_access stateStore handle session state_id).resp =
        .accepted ∧
    (request_state_access stateStore handle session state_id).session.data_tasks.Nodup ∧
    (∀ t ∈ handle ms.descriptors session.data_tasks,
      t ∈ (request_state_access stateStore handle session state_id).session.data_tasks) ∧
    dictGet
        (request_state_access stateStore handle session state_id).session.state_access
        (.str state_id) =
      some (handle ms.descriptors session.data_tasks) := by
  simp only [request_state_access, hms]
  refine ⟨trivial, List.nodup_dedup _, ?_, dictGet_dictSet _ _ _⟩
  intro t ht
  exact List.mem_dedup.mpr (List.mem_append_right _ ht)

/-- C10, witness: the session already knew task `x` and held a stale
one-job grant `["old"]` for `s1`; after the request the deduplicated task
list contains `x` and `y` once each and the grant is the fresh
`["x", "x", "y"]`. -/
theorem request_state_access_session_invariant_witness :
    (request_state_access storeS1 (fun _ _ => ["x", "x", "y"])
        { data_tasks := ["x"], state_access := [(.str "s1", ["old"])] }
        "s1").session.data_tasks.Nodup ∧
    "y" ∈ (request_state_access storeS1 (fun _ _ => ["x", "x", "y"])
        { data_tasks := ["x"], state_access := [(.str "s1", ["old"])] }
        "s1").session.data_tasks ∧
    dictGet (request_state_access storeS1 (fun _ _ => ["x", "x", "y"])
        { data_tasks := ["x"], state_access := [(.str "s1", ["old"])] }
        "s1").session.state_access (.str "s1") = some ["x", "x", "y"] := by
  have h := request_state_access_session_invariant storeS1
    (fun _ _ => ["x", "x", "y"])
    { data_tasks := ["x"], state_access := [(.str "s1", ["old"])] } "s1" _ rfl
  exact ⟨h.2.1, h.2.2.1 "y" (by decide), h.2.2.2⟩

/-! ## Properties of `save_state` -/

/-- The descriptor-collection loop only fails with one of the two 400
responses (missing record, unparsable record). -/
theorem collectDescriptors_error_bad (dataStore : String → Option DataRecord) :
    ∀ (ids : List String) (e : SaveResp),
      collectDescriptors dataStore ids = .error e →
      (∃ t, e = .badRequestMissing t) ∨ ∃ t, e = .badRequestInvalid t := by
  intro ids
  induction ids with
  | nil =>
    intro e h
    simp only [collectDescriptors] at h
    cases h
  | cons t rest ih =>
    intro e h
    simp only [collectDescriptors] at h
    rcases hdt : dataStore t with _ | r
    · rw [hdt] at h
      injection h with h'
      exact Or.inl ⟨t, h'.symm⟩
    · cases r with
      | invalid =>
        rw [hdt] at h
        injection h with h'
        exact Or.inr ⟨t, h'.symm⟩
      | valid d =>
        rw [hdt] at h
        rcases hcd : collectDescriptors dataStore rest with e' | ds
        · rw [hcd] at h
          injection h with h'
          exact h' ▸ ih e' hcd
        · rw [hcd] at h
          cases h

/-- When every task id resolves to a valid data record, the loop succeeds
and yields one descriptor per task id. -/
theorem collectDescriptors_all_valid (dataStore : String → Option DataRecord) :
    ∀ ids : List String, (∀ t ∈ ids, ∃ d, dataStore t = some (.valid d)) →
      ∃ ds, collectDescriptors dataStore ids = .ok ds ∧
        ds.length = ids.length := by
  intro ids
  induction ids with
  | nil => intro _; exact ⟨[], rfl, rfl⟩
  | cons t rest ih =>
    intro hv
    obtain ⟨d, hd⟩ := hv t (by simp)
    obtain ⟨ds, hds, hlen⟩ := ih (fun x hx => hv x (List.mem_cons_of_mem _ hx))
    refine ⟨d :: ds, ?_, by simp [hlen]⟩
    simp only [collectDescriptors, hd, hds]

/-- The four possible evaluations of `save_state`, by its branch
structure: marker-free 400, descriptor-loop 400, 201 with one write, or
assertion failure. -/
theorem save_state_cases (dataStore : String → Option DataRecord)
    (uuid state server handler : String) :
    (findall state = [] ∧ save_state dataStore uuid state server handler =
      { resp := .badRequestNoIds, writes := [] }) ∨
    (findall state ≠ [] ∧ ∃ e,
      collectDescriptors dataStore ((findall state).map parse_value).dedup =
        .error e ∧
      save_state dataStore uuid state server handler =
        { resp := e, writes := [] }) ∨
    (findall state ≠ [] ∧ ∃ ds,
      collectDescriptors dataStore ((findall state).map parse_value).dedup =
        .ok ds ∧
      (findall state).length = ds.length ∧
      save_state dataStore uuid state server handler =
        { resp := .created uuid
          writes := [("state:" ++ uuid,
            { state := state, server := server, handler := handler
              task_ids := ((findall state).map parse_value).dedup
              descriptors := ds })] }) ∨
    (findall state ≠ [] ∧ ∃ ds,
      collectDescriptors dataStore ((findall state).map parse_value).dedup =
        .ok ds ∧
      (findall state).length ≠ ds.length ∧
      save_state dataStore uuid state server handler =
        { resp := .assertionError, writes := [] }) := by
  by_cases hm : findall state = []
  · exact Or.inl ⟨hm, by simp [save_state, hm]⟩
  · rcases hcd : collectDescriptors dataStore
        ((findall state).map parse_value).dedup with e | ds
    · exact Or.inr (Or.inl ⟨hm, e, rfl, by simp [save_state, hm, hcd]⟩)
    · by_cases hlen : (findall state).length = ds.length
      · exact Or.inr (Or.inr (Or.inl
          ⟨hm, ds, rfl, hlen, by simp [save_state, hm, hcd, hlen]⟩))
      · exact Or.inr (Or.inr (Or.inr
          ⟨hm, ds, rfl, hlen, by simp [save_state, hm, hcd, hlen]⟩))

/-- C3.  A template with no `$...$` markers is rejected with 400 and
nothing is written to redis; and whenever `save_state` answers 201
(`created`), the returned id is the freshly drawn uuid and exactly one
record was persisted, under key `state:{uuid}`. -/
theorem save_state_no_markers_and_created
    (dataStore : String → Option DataRecord)
    (uuid state server handler : String) :
    (findall state = [] →
      save_state dataStore uuid state server handler =
        { resp := .badRequestNoIds, writes := [] }) ∧
    (∀ sid, (save_state dataStore uuid state server handler).resp =
        .created sid →
      sid = uuid ∧
      ∃ ms, (save_state dataStore uuid state server handler).writes =
        [("state:" ++ uuid, ms)]) := by
  constructor
  · intro h
    simp [save_state, h]
  · intro sid h
    rcases save_state_cases dataStore uuid state server handler with
      ⟨hm, heq⟩ | ⟨hm, e, hcd, heq⟩ | ⟨hm, ds, hcd, hlen, heq⟩ |
      ⟨hm, ds, hcd, hlen, heq⟩
    · rw [heq] at h
      have h' : SaveResp.badRequestNoIds = SaveResp.created sid := h
      cases h'
    · rw [heq] at h
      have h' : e = SaveResp.created sid := h
      rcases collectDescriptors_error_bad dataStore _ e hcd with
        ⟨t, rfl⟩ | ⟨t, rfl⟩
      · cases h'
      · cases h'
    · rw [heq] at h
      have h' : SaveResp.created uuid = SaveResp.created sid := h
      injection h' with h''
      exact ⟨h''.symm, _, by rw [heq]⟩
    · rw [heq] at h
      have h' : SaveResp.assertionError = SaveResp.created sid := h
      cases h'

/-- A data store holding valid records for task ids `A` and `B`. -/
def dataAB : String → Option DataRecord := fun t =>
  if t = "A" then some (.valid "descA")
  else if t = "B" then some (.valid "descB")
  else none

/-- C3, witness: a marker-free template is rejected with no write, and the
round-trip template `$A$ vs $B$` is persisted once under `state:u1`. -/
theorem save_state_no_markers_and_created_witness :
    (save_state (fun _ => none) "u1" "plain text" "srv" "test" =
      { resp := .badRequestNoIds, writes := [] }) ∧
    ("u1" = "u1" ∧
      ∃ ms, (save_state dataAB "u1" "$A$ vs $B$" "srv" "test").writes =
        [("state:" ++ "u1", ms)]) :=
  ⟨(save_state_no_markers_and_created (fun _ => none) "u1" "plain text"
      "srv" "test").1 rfl,
   (save_state_no_markers_and_created dataAB "u1" "$A$ vs $B$"
      "srv" "test").2 "u1" rfl⟩

/-- C8, counterexample.  The claim predicts an `AssertionError` for
*every* template repeating a task id; but when the duplicated id has no
`data:{id}` record, the descriptor loop answers 400 first, so no
`AssertionError` is reached. -/
theorem save_state_duplicate_marker_400 :
    findall "$A$$A$" = ["$A$", "$A$"] ∧
    ¬ ((findall "$A$$A$").map parse_value).Nodup ∧
    save_state (fun _ => none) "u1" "$A$$A$" "srv" "test" =
      { resp := .badRequestMissing "A", writes := [] } ∧
    (save_state (fun _ => none) "u1" "$A$$A$" "srv" "test").resp ≠
      .assertionError := by
  refine ⟨rfl, by decide, rfl, ?_⟩
  intro h
  rw [show (save_state (fun _ => none) "u1" "$A$$A$" "srv" "test").resp =
    .badRequestMissing "A" from rfl] at h
  cases h

/-- C8, amended.  For every template in which the same task id appears in
two or more markers (so the parsed marker list is not duplicate-free) and
whose deduplicated task ids all resolve to valid data records,
`list(set(task_ids))` shrinks the id list below the marker count, one
descriptor is collected per id, and the internal
`assert len(matches) == len(descriptors)` fails: the call aborts with an
`AssertionError`, persisting nothing and answering no 400. -/
theorem save_state_duplicate_marker_assertion
    (dataStore : String → Option DataRecord)
    (uuid state server handler : String)
    (hdup : ¬ ((findall state).map parse_value).Nodup)
    (hvalid : ∀ t ∈ ((findall state).map parse_value).dedup,
      ∃ d, dataStore t = some (.valid d)) :
    save_state dataStore uuid state server handler =
      { resp := .assertionError, writes := [] } := by
  have hne : findall state ≠ [] := by
    intro h
    rw [h] at hdup
    exact hdup (by simp)
  obtain ⟨ds, hds, hlen⟩ := collectDescriptors_all_valid dataStore _ hvalid
  have hlt : (((findall state).map parse_value).dedup).length <
      ((findall state).map parse_value).length := by
    rcases Nat.lt_or_ge (((findall state).map parse_value).dedup).length
        ((findall state).map parse_value).length with h | h
    · exact h
    · exfalso
      have hsub := List.dedup_sublist ((findall state).map parse_value)
      have heq := hsub.eq_of_length (Nat.le_antisymm hsub.length_le h)
      exact hdup (heq ▸ List.nodup_dedup ((findall state).map parse_value))
  have hmap : ((findall state).map parse_value).length =
      (findall state).length := List.length_map _ _
  have hfin : (findall state).length ≠ ds.length := by omega
  rcases save_state_cases dataStore uuid state server handler with
    ⟨hm, _⟩ | ⟨_, e, hcd, _⟩ | ⟨_, ds', hcd, hlen', _⟩ | ⟨_, ds', hcd, _, heq⟩
  · exact absurd hm hne
  · rw [hds] at hcd
    cases hcd
  · rw [hds] at hcd
    injection hcd with h'
    subst h'
    exact absurd hlen' hfin
  · exact heq

/-- A data store holding a valid record for task id `A` only. -/
def dataA : String → Option DataRecord := fun t =>
  if t = "A" then some (.valid "descA") else none

/-- C8, witness: the template `$A$$A$` repeats task id `A`, whose data
record exists, and the save dies on the assertion. -/
theorem save_state_duplicate_marker_assertion_witness :
    save_state dataA "u1" "$A$$A$" "srv" "test" =
      { resp := .assertionError, writes := [] } :=
  save_state_duplicate_marker_assertion dataA "u1" "$A$$A$" "srv" "test"
    (by decide)
    (by
      intro t ht
      have hl : ((findall "$A$$A$").map parse_value).dedup = ["A"] := rfl
      rw [hl] at ht
      have : t = "A" := by simpa using ht
      exact ⟨"descA", by rw [this]; rfl⟩)

/-! ## Properties of the analytics controller -/

/-- C4.  The observable job ids are exactly `session['jobs']`:
`create_job` (on a known job name) appends the freshly allocated id;
`cancel_job` on a member removes it (for a duplicate-free session list the
id is gone afterwards) and revokes exactly that id; both `get_job_details`
and `cancel_job` answer 404 for an id outside the list, the latter while
leaving the session untouched and issuing no revoke; and a member id never
yields the 404. -/
theorem analytics_session_access_control
    (celery : String → String × JobResult) (factory : String → Option Unit)
    (newId job_name job_id : String) (session : AnalyticsSession) :
    (factory job_name = some () →
      create_job factory newId job_name session =
        (.created newId, { jobs := session.jobs ++ [newId] })) ∧
    (job_id ∈ session.jobs →
      (cancel_job session job_id).resp = .ok job_id ∧
      (cancel_job session job_id).session.jobs = session.jobs.erase job_id ∧
      (cancel_job session job_id).revoked = [job_id] ∧
      (session.jobs.Nodup → job_id ∉ (cancel_job session job_id).session.jobs)) ∧
    (job_id ∉ session.jobs →
      get_job_details celery session job_id = .notFound ∧
      cancel_job session job_id =
        { resp := .notFound, session := session, revoked := [] }) ∧
    (job_id ∈ session.jobs →
      get_job_details celery session job_id ≠ .notFound) := by
  refine ⟨?_, ?_, ?_, ?_⟩
  · intro h
    simp [create_job, h]
  · intro h
    refine ⟨by simp [cancel_job, h], by simp [cancel_job, h],
      by simp [cancel_job, h], ?_⟩
    intro hnd hmem
    rw [show (cancel_job session job_id).session.jobs =
      session.jobs.erase job_id from by simp [cancel_job, h]] at hmem
    exact (hnd.mem_erase_iff.mp hmem).1 rfl
  · intro h
    exact ⟨by simp [get_job_details, h], by simp [cancel_job, h]⟩
  · intro h
    simp only [get_job_details, if_pos h]
    rcases hcel : celery job_id with ⟨st, r⟩
    cases r with
    | val v =>
      intro hne
      cases hne
    | exc ty msg =>
      intro hne
      cases hne

/-- C4, witness: in the session `{jobs := ["j0"]}`, submitting appends the
new id, the foreign id `jX` gets 404 from both read and cancel with no
revoke, and cancelling `j0` removes it. -/
theorem analytics_session_access_control_witness :
    (create_job (fun _ => some ()) "jNew" "correlation" { jobs := ["j0"] } =
      (.created "jNew", { jobs := ["j0", "jNew"] })) ∧
    get_job_details (fun _ => ("PENDING", .val "r")) { jobs := ["j0"] } "jX" =
      .notFound ∧
    cancel_job { jobs := ["j0"] } "jX" =
      { resp := .notFound, session := { jobs := ["j0"] }, revoked := [] } ∧
    (cancel_job { jobs := ["j0"] } "j0").resp = .ok "j0" ∧
    (cancel_job { jobs := ["j0"] } "j0").session.jobs =
      (["j0"] : List String).erase "j0" ∧
    (cancel_job { jobs := ["j0"] } "j0").revoked = ["j0"] ∧
    "j0" ∉ (cancel_job { jobs := ["j0"] } "j0").session.jobs := by
  have h1 := analytics_session_access_control (fun _ => ("PENDING", .val "r"))
    (fun _ => some ()) "jNew" "correlation" "jX" { jobs := ["j0"] }
  have h2 := analytics_session_access_control (fun _ => ("PENDING", .val "r"))
    (fun _ => some ()) "jNew" "correlation" "j0" { jobs := ["j0"] }
  have hcan := h2.2.1 (by decide)
  exact ⟨h1.1 rfl, (h1.2.2.1 (by decide)).1, (h1.2.2.1 (by decide)).2,
    hcan.1, hcan.2.1, hcan.2.2.1, hcan.2.2.2 (by decide)⟩

/-- C7.  Whenever a job the session may observe stores an exception as its
result, `get_job_details` answers 200 with the job's status and, in place
of the raw exception, the short diagnostic string
`"{type(result).__name__}: {str(result)}"` — so a worker-side failure is
surfaced to the poller, not dropped. -/
theorem get_job_details_exception_string
    (celery : String → String × JobResult) (session : AnalyticsSession)
    (job_id st ty msg : String)
    (hmem : job_id ∈ session.jobs)
    (hres : celery job_id = (st, .exc ty msg)) :
    get_job_details celery session job_id =
      .ok st (.excStr (ty ++ ": " ++ msg)) := by
  simp [get_job_details, hmem, hres]

/-- C7, witness: a failed worker with a stored `ValueError` is reported as
the string `"ValueError: bad input"` next to its status. -/
theorem get_job_details_exception_string_witness :
    get_job_details (fun _ => ("FAILURE", .exc "ValueError" "bad input"))
      { jobs := ["j1"] } "j1" =
      .ok "FAILURE" (.excStr "ValueError: bad input") :=
  get_job_details_exception_string
    (fun _ => ("FAILURE", .exc "ValueError" "bad input"))
    { jobs := ["j1"] } "j1" "FAILURE" "ValueError" "bad input"
    (by decide) rfl

end Fractalis
